import Mathlib

/-!
Verification of the dynamic shop product placer (dynamic_shop_placer_mod.py).

The scene graph (USD stage) is shallowly embedded as a partial map from prim
paths (lists of path segments) to prims.  A prim records its schema type, its
composition arcs (references and payloads), its ordered transform-op list
(xformOpOrder, each op with its authored value when one was set) and its
resetXformStack flag.  Numbers are rationals.  The process-wide random source
(random.sample / random.uniform) is modelled as an oracle passed in explicitly;
its documented contract (sampling without replacement, angles in range) appears
as hypotheses on that oracle.
-/

/-- A rational 3-vector (Gf.Vec3d / Gf.Vec3f values). -/
structure Vec3 where
  x : Rat
  y : Rat
  z : Rat
deriving DecidableEq, Repr

/-- A quaternion-like 4-tuple, scalar part first (Gf.Quatf layout). -/
structure Quat4 where
  w : Rat
  i : Rat
  j : Rat
  k : Rat
deriving DecidableEq, Repr

/-- Flatten a 3-vector to the list of its components. -/
def vec3List (v : Vec3) : List Rat := [v.x, v.y, v.z]

/-- Flatten a quaternion to the list scalar-first, exactly the four numbers
passed to Gf.Quatf(q[0], Gf.Vec3f(q[1], q[2], q[3])). -/
def quatList (q : Quat4) : List Rat := [q.w, q.i, q.j, q.k]

/-- Schema type of a prim: typeless (plain DefinePrim), UsdGeom.Xform, or
UsdGeom.Scope. -/
inductive PrimType where
  | typeless
  | xform
  | scope
deriving DecidableEq, Repr

/-- Kind of an authored transform op. -/
inductive OpKind where
  | translate
  | rotateZYX
  | orient
  | scale
deriving DecidableEq, Repr

/-- One transform op in the xformOpOrder of a prim; val is none when the op was
added but its value never set (AddTranslateOp succeeded, Set never ran). -/
structure XformOp where
  kind : OpKind
  val : Option (List Rat)
deriving DecidableEq, Repr

/-- A composition reference: asset path plus target prim path inside it. -/
structure Ref where
  assetPath : String
  primPath : List String
deriving DecidableEq, Repr

/-- A prim of the stage. -/
structure Prim where
  type : PrimType
  refs : List Ref
  payloads : List String
  ops : List XformOp
  resetXformStack : Bool
deriving DecidableEq, Repr

/-- A prim path, as its list of segments (an SdfPath below the pseudo-root). -/
abbrev PrimPath := List String

/-- The stage: a partial map from paths to prims. -/
abbrev Stage := PrimPath → Option Prim

/-- Author a prim at a path (creating or overwriting the entry). -/
def setPrim (s : Stage) (p : PrimPath) (pr : Prim) : Stage :=
  fun q => if q = p then some pr else s q

/-- Fresh prim as produced by UsdGeom.Xform.Define at a previously empty path. -/
def freshXformPrim : Prim :=
  { type := PrimType.xform, refs := [], payloads := [], ops := [],
    resetXformStack := false }

/-- Fresh prim as produced by UsdGeom.Scope.Define at a previously empty path. -/
def freshScopePrim : Prim :=
  { type := PrimType.scope, refs := [], payloads := [], ops := [],
    resetXformStack := false }

/-- Fresh prim as produced by stage.DefinePrim (no schema type). -/
def freshDefPrim : Prim :=
  { type := PrimType.typeless, refs := [], payloads := [], ops := [],
    resetXformStack := false }

/-- The fixed anchor path /World/Shelf. -/
def shelfPath : PrimPath := ["World", "Shelf"]

/-- The base-fixture asset path (BASE_PATH + assets/Shop Minimal Empty.usda). -/
def empty_shop_path : String :=
  "/workspace/isaac_sim_dynamic_store/assets/Shop Minimal Empty.usda"

/-- One catalog entry (one product record of product_data.json); optional
fields are absent dictionary keys. -/
structure Entry where
  shelf : Option String
  category : Option String
  asset : Option String
  translate : Option Vec3
  scale : Option Vec3
  rotate : Option Vec3
  orient : Option Quat4
deriving DecidableEq, Repr

/-- The catalog: insertion-ordered mapping from product id to entry
(a Python dict, so keys are unique). -/
abbrev Catalog := List (String × Entry)

/-- The process-wide random source, as an oracle: sample pop k models
random.sample(pop, k); uniform3 pid models the three random.uniform(-180, 180)
draws consumed for product pid. -/
structure RandSrc where
  sample : List String → Nat → List String
  uniform3 : String → Vec3

/-- Documented contract of random.sample on a duplicate-free population:
the result is duplicate-free, drawn from the population, of the requested
length. -/
def SampleOk (r : RandSrc) : Prop :=
  ∀ pop k, pop.Nodup → k ≤ pop.length →
    (r.sample pop k).Nodup ∧ r.sample pop k ⊆ pop ∧ (r.sample pop k).length = k

/-- An angle produced by random.uniform(-180, 180), in range. -/
def angleInRange (a : Rat) : Prop := -180 ≤ a ∧ a < 180

/-- All three sampled Euler angles in range. -/
def vec3InRange (v : Vec3) : Prop :=
  angleInRange v.x ∧ angleInRange v.y ∧ angleInRange v.z

/-- Contract of the uniform angle draws. -/
def UniformOk (r : RandSrc) : Prop := ∀ pid, vec3InRange (r.uniform3 pid)

/-- Python str.lower(), mapping each character to lower case. -/
def strLower (s : String) : String := String.mk (s.data.map Char.toLower)

/-- The configuration flags read at module scope in the source. -/
structure Config where
  use_current_scene : Bool
  apply_shelf_world_xform : Bool
  shelf_world_translate : Vec3
  shelf_world_rotate_zyx_deg : Vec3
  shelf_world_xform_mode : String

/-- The default flag values of the source module. -/
def defaultConfig : Config :=
  { use_current_scene := true
    apply_shelf_world_xform := false
    shelf_world_translate := { x := 0, y := 0, z := 0 }
    shelf_world_rotate_zyx_deg := { x := 0, y := 0, z := 0 }
    shelf_world_xform_mode := "additive" }

/-- apply_shelf_world_transform_if_enabled: on the flag, optionally author a
world transform on /World/Shelf.  Mirrors the source: early-return when the
flag is off; error when the shelf prim is missing; otherwise set the
resetXformStack flag from the mode, clear the op order, add a translate op and
a rotate-ZYX op with the configured values, and set the op order to exactly
those two ops. -/
def apply_shelf_world_transform_if_enabled (cfg : Config) (s : Stage) :
    Bool × Stage :=
  if !cfg.apply_shelf_world_xform then (true, s)
  else
    match s shelfPath with
    | none => (false, s)
    | some shelf_prim =>
      let reset := strLower cfg.shelf_world_xform_mode == "override"
      let x0 := { shelf_prim with resetXformStack := reset }
      let x1 := { x0 with ops := [] }
      let translate_op : XformOp :=
        { kind := OpKind.translate, val := some (vec3List cfg.shelf_world_translate) }
      let rotate_op : XformOp :=
        { kind := OpKind.rotateZYX, val := some (vec3List cfg.shelf_world_rotate_zyx_deg) }
      let x2 := { x1 with ops := x1.ops ++ [translate_op] }
      let x3 := { x2 with ops := x2.ops ++ [rotate_op] }
      let x4 := { x3 with ops := [translate_op, rotate_op] }
      (true, setPrim s shelfPath x4)

/-- add_shelf_to_existing_stage: operate on the currently open stage (none =
no stage open in the GUI); ensure a /World/Shelf Xform exists, clear old
references, add the single reference to the shelf of the empty-shop asset,
then run the optional world transform. -/
def add_shelf_to_existing_stage (cfg : Config) (ctx : Option Stage) :
    Bool × Option Stage :=
  match ctx with
  | none => (false, none)
  | some stage =>
    let s1 :=
      match stage shelfPath with
      | some _ => stage
      | none => setPrim stage shelfPath freshXformPrim
    let shelf_prim := (s1 shelfPath).getD freshXformPrim
    let cleared := { shelf_prim with refs := [] }
    let referenced :=
      { cleared with
        refs := cleared.refs ++ [{ assetPath := empty_shop_path, primPath := shelfPath }] }
    let s2 := setPrim s1 shelfPath referenced
    let res := apply_shelf_world_transform_if_enabled cfg s2
    (res.1, some res.2)

/-- load_empty_shop_sync: open the empty shop as a new stage.  openResult is
the outcome of omni open_stage: none when the backing store cannot be opened
(the current stage is untouched), some base when it opens with the content of the file.  After a successful open the optional world transform runs. -/
def load_empty_shop_sync (cfg : Config) (ctx : Option Stage)
    (openResult : Option Stage) : Bool × Option Stage :=
  match openResult with
  | none => (false, ctx)
  | some base =>
    let res := apply_shelf_world_transform_if_enabled cfg base
    (res.1, some res.2)

/-- Insert a (shelf, category) pair into the accumulated
shelf_categories mapping, mirroring setdefault(shelf, set()).add(category):
the category set is modelled as a duplicate-free insertion-ordered list. -/
def addPair : List (String × List String) → String → String →
    List (String × List String)
  | [], sl, c => [(sl, [c])]
  | (k, cs) :: rest, sl, c =>
    if k = sl then (k, if c ∈ cs then cs else cs ++ [c]) :: rest
    else (k, cs) :: addPair rest sl c

/-- The shelf_categories dictionary built by the loop over PRODUCT_DATA. -/
def shelfCategories (catalog : Catalog) : List (String × List String) :=
  catalog.foldl
    (fun acc ke =>
      addPair acc (ke.2.shelf.getD "Items_Lower") (ke.2.category.getD "Unknown"))
    []

/-- UsdGeom.Scope.Define: reuse the prim at the path when it exists (authoring
its type as Scope), otherwise create a fresh Scope prim. -/
def defineScope (s : Stage) (p : PrimPath) : Stage :=
  match s p with
  | some pr => setPrim s p { pr with type := PrimType.scope }
  | none => setPrim s p freshScopePrim

/-- create_product_hierarchy: fail when /World/Shelf does not exist; otherwise
define a Scope at /World/Shelf/shelf_level and /World/Shelf/shelf_level/category
for every pair derived from the catalog. -/
def create_product_hierarchy (catalog : Catalog) (s : Stage) : Bool × Stage :=
  match s shelfPath with
  | none => (false, s)
  | some _ =>
    let shelf_categories := shelfCategories catalog
    let s' :=
      shelf_categories.foldl
        (fun st slc =>
          let st1 := defineScope st ["World", "Shelf", slc.1]
          slc.2.foldl (fun st2 c => defineScope st2 ["World", "Shelf", slc.1, c]) st1)
        s
    (true, s')

/-- The deterministic path of a placed product:
/World/Shelf/shelf_level/category/product_id with the source defaults. -/
def productPath (product_id : String) (e : Entry) : PrimPath :=
  ["World", "Shelf", e.shelf.getD "Items_Lower", e.category.getD "Unknown",
   product_id]

/-- AddPayload semantics of the Sdf list op: appending an item that is already
present leaves the list unchanged. -/
def addListItem (l : List String) (a : String) : List String :=
  if a ∈ l then l else l ++ [a]

/-- place_product: define the product prim, add its asset payload, clear the
op order, author translate, scale and the optional rotation (Euler rotate-ZYX
preferred over orient), then set the op order to exactly
[translate, rotation?, scale].  A missing required dictionary key (asset,
translate, scale) raises at the corresponding line; the Bool is false and the
stage keeps the mutations performed before the raise. -/
def place_product (product_id : String) (e : Entry) (s : Stage) :
    Bool × Stage :=
  let path := productPath product_id e
  let pr0 := (s path).getD freshDefPrim
  let s1 := setPrim s path pr0
  match e.asset with
  | none => (false, s1)
  | some a =>
    let pr1 := { pr0 with payloads := addListItem pr0.payloads a }
    let s2 := setPrim s1 path pr1
    let pr2 := { pr1 with ops := [] }
    match e.translate with
    | none =>
      (false, setPrim s2 path
        { pr2 with ops := pr2.ops ++ [{ kind := OpKind.translate, val := none }] })
    | some t =>
      let translate_op : XformOp :=
        { kind := OpKind.translate, val := some (vec3List t) }
      let pr3 := { pr2 with ops := pr2.ops ++ [translate_op] }
      match e.scale with
      | none =>
        (false, setPrim s2 path
          { pr3 with ops := pr3.ops ++ [{ kind := OpKind.scale, val := none }] })
      | some sc =>
        let scale_op : XformOp := { kind := OpKind.scale, val := some (vec3List sc) }
        let pr4 := { pr3 with ops := pr3.ops ++ [scale_op] }
        let rotation_op : Option XformOp :=
          match e.rotate with
          | some rv => some { kind := OpKind.rotateZYX, val := some (vec3List rv) }
          | none =>
            match e.orient with
            | some q => some { kind := OpKind.orient, val := some (quatList q) }
            | none => none
        match rotation_op with
        | some ro =>
          (true, setPrim s2 path { pr4 with ops := [translate_op, ro, scale_op] })
        | none =>
          (true, setPrim s2 path { pr4 with ops := [translate_op, scale_op] })

/-- randomize_product_rotations: copy the mapping and, for the pids drawn by
random.sample(product_ids, min(num_products, len(product_ids))), replace the
rotate field with three uniform draws and pop any orient field. -/
def randomize_product_rotations (catalog : Catalog) (num_products : Nat)
    (r : RandSrc) : Catalog :=
  let product_ids := catalog.map Prod.fst
  let selected_products := r.sample product_ids (min num_products product_ids.length)
  catalog.map
    (fun ke =>
      if ke.1 ∈ selected_products then
        (ke.1, { ke.2 with rotate := some (r.uniform3 ke.1), orient := none })
      else ke)

/-- The placement loop of place_all_products: try each entry, counting
successes; a per-entry exception is caught and the loop continues. -/
def place_all_loop (entries : Catalog) (acc : Nat × Stage) : Nat × Stage :=
  entries.foldl
    (fun a ke =>
      let res := place_product ke.1 ke.2 a.2
      (if res.1 then a.1 + 1 else a.1, res.2))
    acc

/-- place_all_products: randomize with the hard-coded count 3, place every
entry, and succeed when at least one placement succeeded. -/
def place_all_products (catalog : Catalog) (r : RandSrc) (s : Stage) :
    Bool × Stage :=
  let randomized_product_data := randomize_product_rotations catalog 3 r
  let res := place_all_loop randomized_product_data (0, s)
  (decide (0 < res.1), res.2)

/-- setup_scene_sync: the full pipeline.  ctx is the currently open stage (or
none), openResult the outcome of opening the empty-shop file when the
open-new-stage branch is taken. -/
def setup_scene_sync (cfg : Config) (catalog : Catalog) (r : RandSrc)
    (ctx : Option Stage) (openResult : Option Stage) : Bool × Option Stage :=
  let step1 :=
    if cfg.use_current_scene then add_shelf_to_existing_stage cfg ctx
    else load_empty_shop_sync cfg ctx openResult
  match step1 with
  | (false, c) => (false, c)
  | (true, c) =>
    match c with
    | none => (false, none)
    | some s =>
      match create_product_hierarchy catalog s with
      | (false, s2) => (false, some s2)
      | (true, s2) =>
        let res := place_all_products catalog r s2
        (res.1, some res.2)

/-! ## Characterization layer: per-path normal forms of each operation -/

/-- Whether an entry has all fields required by placement. -/
def requiredB (e : Entry) : Bool :=
  e.asset.isSome && e.translate.isSome && e.scale.isSome

/-- The expected op list authored by the transform composer for a
fully-specified entry: translate, the rotation-family op when one is present
(Euler preferred over orient), then scale.  This is the spec-side description
of the op order, compared below with what place_product authors. -/
def specOpList (e : Entry) : List XformOp :=
  let tOp : XformOp := { kind := OpKind.translate, val := e.translate.map vec3List }
  let sOp : XformOp := { kind := OpKind.scale, val := e.scale.map vec3List }
  match e.rotate with
  | some rv => [tOp, { kind := OpKind.rotateZYX, val := some (vec3List rv) }, sOp]
  | none =>
    match e.orient with
    | some q => [tOp, { kind := OpKind.orient, val := some (quatList q) }, sOp]
    | none => [tOp, sOp]

/-- Normal form of the prim authored by place_product at the product path,
as a function of the prim previously there. -/
def placePrimF (e : Entry) (x : Option Prim) : Prim :=
  let pr0 := x.getD freshDefPrim
  match e.asset with
  | none => pr0
  | some a =>
    let pr1 := { pr0 with payloads := addListItem pr0.payloads a }
    match e.translate with
    | none => { pr1 with ops := [{ kind := OpKind.translate, val := none }] }
    | some t =>
      match e.scale with
      | none =>
        { pr1 with ops := [{ kind := OpKind.translate, val := some (vec3List t) },
                           { kind := OpKind.scale, val := none }] }
      | some _ => { pr1 with ops := specOpList e }

theorem setPrim_self (s : Stage) (p : PrimPath) (pr : Prim) :
    setPrim s p pr p = some pr := by
  simp [setPrim]

theorem setPrim_other (s : Stage) (p q : PrimPath) (pr : Prim) (h : q ≠ p) :
    setPrim s p pr q = s q := by
  simp [setPrim, h]

theorem setPrim_setPrim (s : Stage) (p : PrimPath) (a b : Prim) :
    setPrim (setPrim s p a) p b = setPrim s p b := by
  funext q
  by_cases h : q = p <;> simp [setPrim, h]

/-- place_product in normal form: the Bool tells whether all required fields
were present, and the stage is a single overwrite at the product path with a
prim computed by placePrimF from the old prim there. -/
theorem place_product_eq (product_id : String) (e : Entry) (s : Stage) :
    place_product product_id e s =
      (requiredB e,
       setPrim s (productPath product_id e)
         (placePrimF e (s (productPath product_id e)))) := by
  obtain ⟨sh, cat, a, t, sc, rot, ornt⟩ := e
  cases a <;> cases t <;> cases sc <;>
    simp [place_product, placePrimF, requiredB, specOpList, setPrim_setPrim] <;>
    cases rot <;> cases ornt <;>
      simp [place_product, placePrimF, requiredB, specOpList, setPrim_setPrim]

/-- Normal form of the prim authored on the anchor by the world-transform
step (flag enabled). -/
def applyPrimF (cfg : Config) (pr : Prim) : Prim :=
  { pr with
    resetXformStack := strLower cfg.shelf_world_xform_mode == "override"
    ops := [{ kind := OpKind.translate, val := some (vec3List cfg.shelf_world_translate) },
            { kind := OpKind.rotateZYX, val := some (vec3List cfg.shelf_world_rotate_zyx_deg) }] }

/-- Normal form of the prim left on the anchor by the whole attach step
(reference authoring plus optional world transform), as a function of the
prim previously there. -/
def shelfF (cfg : Config) (x : Option Prim) : Prim :=
  let pr :=
    { x.getD freshXformPrim with
      refs := [{ assetPath := empty_shop_path, primPath := shelfPath }] }
  if cfg.apply_shelf_world_xform then applyPrimF cfg pr else pr

theorem apply_disabled (cfg : Config) (s : Stage)
    (h : cfg.apply_shelf_world_xform = false) :
    apply_shelf_world_transform_if_enabled cfg s = (true, s) := by
  simp [apply_shelf_world_transform_if_enabled, h]

theorem apply_enabled_missing (cfg : Config) (s : Stage)
    (h : cfg.apply_shelf_world_xform = true) (hs : s shelfPath = none) :
    apply_shelf_world_transform_if_enabled cfg s = (false, s) := by
  simp [apply_shelf_world_transform_if_enabled, h, hs]

theorem apply_enabled_present (cfg : Config) (s : Stage) (pr : Prim)
    (h : cfg.apply_shelf_world_xform = true) (hs : s shelfPath = some pr) :
    apply_shelf_world_transform_if_enabled cfg s =
      (true, setPrim s shelfPath (applyPrimF cfg pr)) := by
  simp [apply_shelf_world_transform_if_enabled, h, hs, applyPrimF]

/-- The attach step on an open stage always succeeds and is a single
overwrite of the anchor prim. -/
theorem add_shelf_eq (cfg : Config) (s : Stage) :
    add_shelf_to_existing_stage cfg (some s) =
      (true, some (setPrim s shelfPath (shelfF cfg (s shelfPath)))) := by
  cases hx : s shelfPath with
  | none =>
    cases ha : cfg.apply_shelf_world_xform with
    | false =>
      simp [add_shelf_to_existing_stage, hx, setPrim_self, shelfF, ha,
        apply_disabled, setPrim_setPrim]
    | true =>
      have h2 :
          (setPrim (setPrim s shelfPath freshXformPrim) shelfPath
            { freshXformPrim with
              refs := [{ assetPath := empty_shop_path, primPath := shelfPath }] }) =
          (setPrim s shelfPath
            { freshXformPrim with
              refs := [{ assetPath := empty_shop_path, primPath := shelfPath }] }) :=
        setPrim_setPrim ..
      simp only [add_shelf_to_existing_stage, hx, setPrim_self, Option.getD_some, h2]
      rw [apply_enabled_present cfg _ _ ha (setPrim_self ..)]
      simp [shelfF, hx, ha, setPrim_setPrim]
  | some pr =>
    cases ha : cfg.apply_shelf_world_xform with
    | false =>
      simp [add_shelf_to_existing_stage, hx, shelfF, ha, apply_disabled]
    | true =>
      simp only [add_shelf_to_existing_stage, hx, Option.getD_some]
      rw [apply_enabled_present cfg _ _ ha (setPrim_self ..)]
      simp [shelfF, hx, ha, setPrim_setPrim]

/-- Normal form of a Scope definition as a function of the old prim. -/
def scopify (x : Option Prim) : Prim :=
  { x.getD freshScopePrim with type := PrimType.scope }

theorem defineScope_apply (s : Stage) (q p : PrimPath) :
    defineScope s q p = if p = q then some (scopify (s q)) else s p := by
  by_cases h : p = q <;> cases hq : s q <;>
    simp [defineScope, hq, scopify, setPrim, h, freshScopePrim]

theorem scopify_scopify (x : Option Prim) :
    scopify (some (scopify x)) = scopify x := by
  simp [scopify]

/-- The flat list of all group paths the hierarchy builder defines, derived
from the shelf_categories mapping. -/
def groupPathsOfSC (sc : List (String × List String)) : List PrimPath :=
  sc.foldr
    (fun slc acc =>
      ((["World", "Shelf", slc.1] : PrimPath)
          :: slc.2.map (fun c => (["World", "Shelf", slc.1, c] : PrimPath)))
        ++ acc)
    []

/-- All group paths of a catalog. -/
def groupPathsOf (catalog : Catalog) : List PrimPath :=
  groupPathsOfSC (shelfCategories catalog)

/-- Folding defineScope over a list of paths, evaluated at a point: any path
in the list is scopified once (repetition collapses), others are untouched. -/
theorem foldScope_apply (L : List PrimPath) (s : Stage) (p : PrimPath) :
    (L.foldl defineScope s) p =
      if p ∈ L then some (scopify (s p)) else s p := by
  induction L generalizing s with
  | nil => simp
  | cons q L ih =>
    by_cases h : p = q
    · subst h
      simp only [List.foldl_cons, ih, defineScope_apply, if_pos rfl,
        List.mem_cons, true_or, if_pos]
      by_cases hm : p ∈ L <;> simp [hm, scopify_scopify]
    · simp only [List.foldl_cons, ih, defineScope_apply, if_neg h]
      by_cases hm : p ∈ L <;> simp [hm, h]

/-- The nested hierarchy fold equals the flat fold over the group paths. -/
theorem hierarchy_fold_eq (sc : List (String × List String)) (s : Stage) :
    sc.foldl
      (fun st slc =>
        let st1 := defineScope st ["World", "Shelf", slc.1]
        slc.2.foldl (fun st2 c => defineScope st2 ["World", "Shelf", slc.1, c]) st1)
      s
    = (groupPathsOfSC sc).foldl defineScope s := by
  induction sc generalizing s with
  | nil => simp [groupPathsOfSC]
  | cons slc sc ih =>
    simp only [List.foldl_cons, ih, groupPathsOfSC, List.foldr_cons]
    rw [List.foldl_append, List.foldl_cons, List.foldl_map]

/-- create_product_hierarchy on a stage with the anchor present: succeeds and
is the flat defineScope fold. -/
theorem hierarchy_eq (catalog : Catalog) (s : Stage) (pr : Prim)
    (h : s shelfPath = some pr) :
    create_product_hierarchy catalog s =
      (true, (groupPathsOf catalog).foldl defineScope s) := by
  simp [create_product_hierarchy, h, hierarchy_fold_eq, groupPathsOf]

theorem hierarchy_missing (catalog : Catalog) (s : Stage)
    (h : s shelfPath = none) :
    create_product_hierarchy catalog s = (false, s) := by
  simp [create_product_hierarchy, h]

/-- The selected pids of one randomize call. -/
def selOf (catalog : Catalog) (n : Nat) (r : RandSrc) : List String :=
  r.sample (catalog.map Prod.fst) (min n (catalog.map Prod.fst).length)

/-- The per-entry action of randomize. -/
def varyF (sel : List String) (r : RandSrc) (ke : String × Entry) :
    String × Entry :=
  if ke.1 ∈ sel then
    (ke.1, { ke.2 with rotate := some (r.uniform3 ke.1), orient := none })
  else ke

theorem randomize_eq (catalog : Catalog) (n : Nat) (r : RandSrc) :
    randomize_product_rotations catalog n r =
      catalog.map (varyF (selOf catalog n r) r) := rfl

theorem varyF_fst (sel : List String) (r : RandSrc) (ke : String × Entry) :
    (varyF sel r ke).1 = ke.1 := by
  unfold varyF; split <;> rfl

theorem varyF_shelf (sel : List String) (r : RandSrc) (ke : String × Entry) :
    (varyF sel r ke).2.shelf = ke.2.shelf := by
  unfold varyF; split <;> rfl

theorem varyF_category (sel : List String) (r : RandSrc) (ke : String × Entry) :
    (varyF sel r ke).2.category = ke.2.category := by
  unfold varyF; split <;> rfl

theorem varyF_asset (sel : List String) (r : RandSrc) (ke : String × Entry) :
    (varyF sel r ke).2.asset = ke.2.asset := by
  unfold varyF; split <;> rfl

theorem varyF_translate (sel : List String) (r : RandSrc) (ke : String × Entry) :
    (varyF sel r ke).2.translate = ke.2.translate := by
  unfold varyF; split <;> rfl

theorem varyF_scale (sel : List String) (r : RandSrc) (ke : String × Entry) :
    (varyF sel r ke).2.scale = ke.2.scale := by
  unfold varyF; split <;> rfl

theorem varyF_requiredB (sel : List String) (r : RandSrc) (ke : String × Entry) :
    requiredB (varyF sel r ke).2 = requiredB ke.2 := by
  simp [requiredB, varyF_asset, varyF_translate, varyF_scale]

theorem varyF_productPath (sel : List String) (r : RandSrc) (ke : String × Entry) :
    productPath (varyF sel r ke).1 (varyF sel r ke).2 = productPath ke.1 ke.2 := by
  simp [productPath, varyF_fst, varyF_shelf, varyF_category]

theorem randomize_keys (catalog : Catalog) (n : Nat) (r : RandSrc) :
    (randomize_product_rotations catalog n r).map Prod.fst =
      catalog.map Prod.fst := by
  rw [randomize_eq, List.map_map]
  exact List.map_congr_left (fun ke _ => varyF_fst ..)

/-- Injectivity of the product path in the product id (it is the fifth
segment). -/
theorem productPath_inj_key (k1 k2 : String) (e1 e2 : Entry)
    (h : productPath k1 e1 = productPath k2 e2) : k1 = k2 := by
  simp only [productPath, List.cons.injEq, and_true, true_and] at h
  exact h.2.2

/-- The success flag of one placement depends only on the required
fields of the entry. -/
theorem place_product_success (product_id : String) (e : Entry) (s : Stage) :
    (place_product product_id e s).1 = requiredB e := by
  rw [place_product_eq]

/-- The tally of the placement loop: every entry with its required fields
present is counted, independently of the incoming stage and of failures of
other entries. -/
theorem place_all_loop_count (E : Catalog) (n : Nat) (s : Stage) :
    (place_all_loop E (n, s)).1 = n + E.countP (fun ke => requiredB ke.2) := by
  induction E generalizing n s with
  | nil => simp [place_all_loop]
  | cons ke E ih =>
    simp only [place_all_loop, List.foldl_cons] at *
    rw [ih, List.countP_cons]
    cases h : requiredB ke.2 <;>
      simp [place_product_success, h, Nat.add_assoc, Nat.add_comm]

/-- find? over a mapped list. -/
theorem find?_map_eq {α β : Type} (f : α → β) (q : β → Bool) (l : List α) :
    (l.map f).find? q = (l.find? (fun a => q (f a))).map f := by
  induction l with
  | nil => rfl
  | cons a l ih =>
    simp only [List.map_cons, List.find?_cons]
    cases h : q (f a) <;> simp [h, ih]

/-- The stage left by the placement loop, evaluated at a path: when the
entries have duplicate-free keys, the path is either owned by exactly one
entry (and holds its placePrimF image of the old prim) or untouched. -/
theorem place_all_loop_stage (E : Catalog) (hE : (E.map Prod.fst).Nodup)
    (n : Nat) (s : Stage) (p : PrimPath) :
    (place_all_loop E (n, s)).2 p =
      match E.find? (fun ke => decide (productPath ke.1 ke.2 = p)) with
      | some ke => some (placePrimF ke.2 (s p))
      | none => s p := by
  induction E generalizing n s with
  | nil => simp [place_all_loop]
  | cons ke E ih =>
    simp only [List.map_cons, List.nodup_cons] at hE
    obtain ⟨hk, hE'⟩ := hE
    simp only [place_all_loop, List.foldl_cons] at *
    rw [place_product_eq]
    by_cases hp : productPath ke.1 ke.2 = p
    · subst hp
      have hfind :
          E.find? (fun ke2 => decide (productPath ke2.1 ke2.2 = productPath ke.1 ke.2))
            = none := by
        rw [List.find?_eq_none]
        intro ke2 hmem
        simp only [decide_eq_true_eq]
        intro hpp
        exact hk (by
          rw [← productPath_inj_key ke2.1 ke.1 ke2.2 ke.2 hpp]
          exact List.mem_map.2 ⟨ke2, hmem, rfl⟩)
      rw [ih hE', hfind]
      simp [List.find?_cons, setPrim_self]
    · have : (decide (productPath ke.1 ke.2 = p)) = false := by
        simp [hp]
      rw [ih hE']
      simp only [List.find?_cons, this]
      rw [setPrim_other _ _ _ _ (fun h => hp h.symm)]

theorem addListItem_idem (l : List String) (a : String) :
    addListItem (addListItem l a) a = addListItem l a := by
  unfold addListItem
  by_cases h : a ∈ l <;> simp [h]

/-- Re-placing over an earlier placement of a vary-related entry (same asset,
translate and scale fields) gives the same prim as placing over the original:
the op order is fully replaced and the payload list op deduplicates. -/
theorem placePrimF_comp (e1 e2 : Entry) (x : Option Prim)
    (ha : e1.asset = e2.asset) (ht : e1.translate = e2.translate)
    (hs : e1.scale = e2.scale) :
    placePrimF e2 (some (placePrimF e1 x)) = placePrimF e2 x := by
  obtain ⟨sh1, cat1, a1, t1, sc1, rot1, ornt1⟩ := e1
  obtain ⟨sh2, cat2, a2, t2, sc2, rot2, ornt2⟩ := e2
  simp only at ha ht hs
  subst ha ht hs
  cases a1 <;> cases t1 <;> cases sc1 <;>
    cases rot1 <;> cases ornt1 <;> cases rot2 <;> cases ornt2 <;>
      simp [placePrimF, specOpList, addListItem_idem]

/-- Re-attaching over an earlier attach gives the same anchor prim. -/
theorem shelfF_comp (cfg : Config) (x : Option Prim) :
    shelfF cfg (some (shelfF cfg x)) = shelfF cfg x := by
  cases h : cfg.apply_shelf_world_xform <;>
    simp [shelfF, h, applyPrimF]

/-- Group paths have three or four segments. -/
theorem mem_groupPathsOfSC_length (sc : List (String × List String))
    (p : PrimPath) (h : p ∈ groupPathsOfSC sc) :
    p.length = 3 ∨ p.length = 4 := by
  induction sc with
  | nil => simp [groupPathsOfSC] at h
  | cons slc sc ih =>
    simp only [groupPathsOfSC, List.foldr_cons, List.mem_append,
      List.mem_cons] at h
    rcases h with (h | h) | h
    · subst h; left; rfl
    · obtain ⟨c, _, hc⟩ := List.mem_map.1 h
      subst hc; right; rfl
    · exact ih h

theorem shelfPath_not_group (catalog : Catalog)
    (h : shelfPath ∈ groupPathsOf catalog) : False := by
  rcases mem_groupPathsOfSC_length _ _ h with h2 | h2 <;> simp [shelfPath] at h2

theorem productPath_not_group (catalog : Catalog) (k : String) (e : Entry)
    (h : productPath k e ∈ groupPathsOf catalog) : False := by
  rcases mem_groupPathsOfSC_length _ _ h with h2 | h2 <;> simp [productPath] at h2

theorem productPath_ne_shelfPath (k : String) (e : Entry) :
    productPath k e ≠ shelfPath := by
  intro h
  have := congrArg List.length h
  simp [productPath, shelfPath] at this

/-- Variation does not change which entries have their required fields. -/
theorem randomize_countP (catalog : Catalog) (n : Nat) (r : RandSrc) :
    (randomize_product_rotations catalog n r).countP (fun ke => requiredB ke.2)
      = catalog.countP (fun ke => requiredB ke.2) := by
  rw [randomize_eq, List.countP_map]
  exact List.countP_congr (fun ke _ => by
    simp [Function.comp, varyF_requiredB])

/-- Looking an owner entry up in the varied catalog is looking it up in the
original and varying it. -/
theorem randomize_find? (catalog : Catalog) (n : Nat) (r : RandSrc)
    (p : PrimPath) :
    (randomize_product_rotations catalog n r).find?
        (fun ke => decide (productPath ke.1 ke.2 = p))
      = (catalog.find? (fun ke => decide (productPath ke.1 ke.2 = p))).map
          (varyF (selOf catalog n r) r) := by
  rw [randomize_eq, find?_map_eq]
  have hpred :
      (fun a : String × Entry =>
        decide (productPath (varyF (selOf catalog n r) r a).1
          (varyF (selOf catalog n r) r a).2 = p))
      = fun a : String × Entry => decide (productPath a.1 a.2 = p) := by
    funext a
    rw [varyF_productPath]
  rw [hpred]

/-- The stage transform of the attach step. -/
def attachStageF (cfg : Config) (s : Stage) : Stage :=
  setPrim s shelfPath (shelfF cfg (s shelfPath))

/-- The stage transform of the hierarchy step. -/
def hierStageF (catalog : Catalog) (s : Stage) : Stage :=
  (groupPathsOf catalog).foldl defineScope s

/-- The stage left by one full pipeline run in attach-into-current mode. -/
def pipelineStageF (cfg : Config) (catalog : Catalog) (r : RandSrc)
    (s : Stage) : Stage :=
  (place_all_loop (randomize_product_rotations catalog 3 r)
    (0, hierStageF catalog (attachStageF cfg s))).2

/-- Pointwise description of the stage of a full run. -/
theorem pipelineStageF_apply (cfg : Config) (catalog : Catalog) (r : RandSrc)
    (s : Stage) (p : PrimPath) (hn : (catalog.map Prod.fst).Nodup) :
    pipelineStageF cfg catalog r s p =
      if p = shelfPath then some (shelfF cfg (s shelfPath))
      else if p ∈ groupPathsOf catalog then some (scopify (s p))
      else
        match (randomize_product_rotations catalog 3 r).find?
            (fun ke => decide (productPath ke.1 ke.2 = p)) with
        | some ke => some (placePrimF ke.2 (s p))
        | none => s p := by
  have hnE : ((randomize_product_rotations catalog 3 r).map Prod.fst).Nodup := by
    rw [randomize_keys]; exact hn
  unfold pipelineStageF
  rw [place_all_loop_stage _ hnE]
  cases hf : (randomize_product_rotations catalog 3 r).find?
      (fun ke => decide (productPath ke.1 ke.2 = p)) with
  | some ke =>
    have hp : productPath ke.1 ke.2 = p := by
      have := List.find?_some hf
      simpa using this
    have hps : p ≠ shelfPath := hp ▸ productPath_ne_shelfPath ke.1 ke.2
    have hpg : p ∉ groupPathsOf catalog :=
      fun hmem => productPath_not_group catalog ke.1 ke.2 (hp ▸ hmem)
    rw [if_neg hps, if_neg hpg]
    unfold hierStageF
    rw [foldScope_apply, if_neg hpg]
    unfold attachStageF
    rw [setPrim_other _ _ _ _ hps]
  | none =>
    by_cases hps : p = shelfPath
    · subst hps
      have hpg : shelfPath ∉ groupPathsOf catalog := shelfPath_not_group catalog
      rw [if_pos rfl]
      unfold hierStageF
      rw [foldScope_apply, if_neg hpg]
      unfold attachStageF
      rw [setPrim_self]
    · rw [if_neg hps]
      unfold hierStageF
      by_cases hpg : p ∈ groupPathsOf catalog
      · rw [foldScope_apply, if_pos hpg, if_pos hpg]
        unfold attachStageF
        rw [setPrim_other _ _ _ _ hps]
      · rw [foldScope_apply, if_neg hpg, if_neg hpg]
        unfold attachStageF
        rw [setPrim_other _ _ _ _ hps]

/-- A second pipeline run over the stage of a first run produces the same
stage as the second run alone. -/
theorem pipelineStageF_comp (cfg : Config) (catalog : Catalog)
    (r1 r2 : RandSrc) (s : Stage) (hn : (catalog.map Prod.fst).Nodup) :
    pipelineStageF cfg catalog r2 (pipelineStageF cfg catalog r1 s)
      = pipelineStageF cfg catalog r2 s := by
  funext p
  rw [pipelineStageF_apply cfg catalog r2 _ p hn,
    pipelineStageF_apply cfg catalog r2 s p hn]
  by_cases hps : p = shelfPath
  · subst hps
    rw [if_pos rfl, if_pos rfl,
      pipelineStageF_apply cfg catalog r1 s shelfPath hn, if_pos rfl,
      shelfF_comp]
  · rw [if_neg hps, if_neg hps]
    by_cases hpg : p ∈ groupPathsOf catalog
    · rw [if_pos hpg, if_pos hpg,
        pipelineStageF_apply cfg catalog r1 s p hn, if_neg hps, if_pos hpg,
        scopify_scopify]
    · rw [if_neg hpg, if_neg hpg, randomize_find?,
        pipelineStageF_apply cfg catalog r1 s p hn, if_neg hps, if_neg hpg,
        randomize_find?]
      cases hb : catalog.find? (fun ke => decide (productPath ke.1 ke.2 = p)) with
      | none => rfl
      | some ke =>
        show some (placePrimF (varyF (selOf catalog 3 r2) r2 ke).2
            (some (placePrimF (varyF (selOf catalog 3 r1) r1 ke).2 (s p))))
          = some (placePrimF (varyF (selOf catalog 3 r2) r2 ke).2 (s p))
        exact congrArg some (placePrimF_comp _ _ _
          (by rw [varyF_asset, varyF_asset])
          (by rw [varyF_translate, varyF_translate])
          (by rw [varyF_scale, varyF_scale]))

/-- The number of successfully placed entries of one run. -/
def pipelineCount (catalog : Catalog) : Nat :=
  catalog.countP (fun ke => requiredB ke.2)

/-- place_all_products in normal form. -/
theorem place_all_products_eq (catalog : Catalog) (r : RandSrc) (s : Stage) :
    place_all_products catalog r s =
      (decide (0 < pipelineCount catalog),
       (place_all_loop (randomize_product_rotations catalog 3 r) (0, s)).2) := by
  have h1 : (place_all_loop (randomize_product_rotations catalog 3 r) (0, s)).1
      = catalog.countP (fun ke => requiredB ke.2) := by
    rw [place_all_loop_count, randomize_countP, Nat.zero_add]
  simp only [place_all_products, pipelineCount]
  rw [h1]

/-- setup_scene_sync in attach-into-current mode on an open stage: the normal
form of the whole pipeline. -/
theorem setup_cur_eq (cfg : Config) (catalog : Catalog) (r : RandSrc)
    (s : Stage) (op : Option Stage) (hcu : cfg.use_current_scene = true) :
    setup_scene_sync cfg catalog r (some s) op =
      (decide (0 < pipelineCount catalog),
       some (pipelineStageF cfg catalog r s)) := by
  unfold setup_scene_sync
  rw [hcu]
  simp only [if_true, add_shelf_eq]
  rw [hierarchy_eq catalog _ (shelfF cfg (s shelfPath)) (setPrim_self ..)]
  simp only
  rw [place_all_products_eq]
  rfl

/-- setup_scene_sync in attach-into-current mode with no open stage fails
and leaves no stage. -/
theorem setup_cur_none (cfg : Config) (catalog : Catalog) (r : RandSrc)
    (op : Option Stage) (hcu : cfg.use_current_scene = true) :
    setup_scene_sync cfg catalog r none op = (false, none) := by
  unfold setup_scene_sync
  rw [hcu]
  rfl

/-- In open-new-scene mode the pipeline never reads the incoming stage
context when the file opens. -/
theorem setup_new_ignores_ctx (cfg : Config) (catalog : Catalog) (r : RandSrc)
    (c c' : Option Stage) (base : Stage)
    (hcu : cfg.use_current_scene = false) :
    setup_scene_sync cfg catalog r c (some base)
      = setup_scene_sync cfg catalog r c' (some base) := by
  unfold setup_scene_sync load_empty_shop_sync
  rw [hcu]
  rfl

/-- In open-new-scene mode a failed open fails the pipeline and keeps the
current stage. -/
theorem setup_new_open_failed (cfg : Config) (catalog : Catalog) (r : RandSrc)
    (c : Option Stage) (hcu : cfg.use_current_scene = false) :
    setup_scene_sync cfg catalog r c none = (false, c) := by
  unfold setup_scene_sync load_empty_shop_sync
  rw [hcu]
  rfl

/-! ## Claim theorems -/

/-- C2: running the full pipeline twice against the same scene and catalog
yields exactly the scene graph of running it once — the result of the second run
(success flag and stage) is identical whether it starts from the untouched
scene or from the scene the first run left behind, so nothing (references on
the anchor, group nodes, transform ops) is duplicated by the rerun. -/
theorem setup_scene_sync_idempotent (cfg : Config) (catalog : Catalog)
    (r1 r2 : RandSrc) (ctx openResult : Option Stage)
    (hn : (catalog.map Prod.fst).Nodup) :
    setup_scene_sync cfg catalog r2
        (setup_scene_sync cfg catalog r1 ctx openResult).2 openResult
      = setup_scene_sync cfg catalog r2 ctx openResult := by
  cases hcu : cfg.use_current_scene with
  | true =>
    cases ctx with
    | none =>
      rw [setup_cur_none cfg catalog r1 openResult hcu]
    | some s =>
      rw [setup_cur_eq cfg catalog r1 s openResult hcu]
      show setup_scene_sync cfg catalog r2
          (some (pipelineStageF cfg catalog r1 s)) openResult
        = setup_scene_sync cfg catalog r2 (some s) openResult
      rw [setup_cur_eq cfg catalog r2 _ openResult hcu,
        setup_cur_eq cfg catalog r2 s openResult hcu,
        pipelineStageF_comp cfg catalog r1 r2 s hn]
  | false =>
    cases openResult with
    | none =>
      rw [setup_new_open_failed cfg catalog r1 ctx hcu]
    | some base =>
      exact setup_new_ignores_ctx cfg catalog r2 _ ctx base hcu

/-- The ops authored for a fully-specified entry are exactly the spec list. -/
theorem placePrimF_ops (e : Entry) (x : Option Prim)
    (ha : e.asset.isSome = true) (ht : e.translate.isSome = true)
    (hsc : e.scale.isSome = true) :
    (placePrimF e x).ops = specOpList e := by
  obtain ⟨sh, cat, a, t, sc, rot, ornt⟩ := e
  cases a <;> cases t <;> cases sc <;> simp_all [placePrimF, specOpList]

/-- C1: for every placed entity whose entry carries the required fields,
placement discards whatever transform ops were previously authored on the
node and sets the op order to exactly the spec list (translate, rotation,
scale when the entry has a rotation-family value; translate, scale when not);
placing the same entry again on the resulting scene authors the same op
order, so repeated placement does not accumulate ops. -/
theorem place_product_op_order (product_id : String) (e : Entry) (s : Stage)
    (ha : e.asset.isSome = true) (ht : e.translate.isSome = true)
    (hsc : e.scale.isSome = true) :
    (((place_product product_id e s).2 (productPath product_id e)).map Prim.ops
        = some (specOpList e))
    ∧ (((place_product product_id e
          ((place_product product_id e s).2)).2 (productPath product_id e)).map
            Prim.ops
        = some (specOpList e)) := by
  constructor
  · rw [place_product_eq]
    simp only [setPrim_self]
    show some (placePrimF e (s (productPath product_id e))).ops
      = some (specOpList e)
    rw [placePrimF_ops e _ ha ht hsc]
  · rw [place_product_eq, place_product_eq]
    simp only [setPrim_self]
    show some (placePrimF e (some (placePrimF e
        (s (productPath product_id e))))).ops = some (specOpList e)
    rw [placePrimF_ops e _ ha ht hsc]

/-- C1 witness at a concrete entry and stage. -/
def exEntryRot : Entry :=
  { shelf := some "Items_Upper", category := some "Snacks",
    asset := some "chips.usd",
    translate := some { x := 1, y := 0, z := 0 },
    scale := some { x := 1, y := 1, z := 1 },
    rotate := some { x := 90, y := 0, z := 0 }, orient := none }

/-- The empty stage. -/
def emptyStage : Stage := fun _ => none

theorem place_product_op_order_witness :
    (exEntryRot.asset.isSome = true ∧ exEntryRot.translate.isSome = true
      ∧ exEntryRot.scale.isSome = true)
    ∧ ((((place_product "A" exEntryRot emptyStage).2
          (productPath "A" exEntryRot)).map Prim.ops = some (specOpList exEntryRot))
      ∧ (((place_product "A" exEntryRot
            ((place_product "A" exEntryRot emptyStage).2)).2
              (productPath "A" exEntryRot)).map Prim.ops
          = some (specOpList exEntryRot))) :=
  ⟨⟨rfl, rfl, rfl⟩, place_product_op_order "A" exEntryRot emptyStage rfl rfl rfl⟩

/-- C4: when an entry carries Euler angles, a rotate-ZYX op with exactly those
degree values is authored — even when a quaternion orientation is also
present, so the Euler rotation takes precedence and no orient op appears;
when only a quaternion-like 4-tuple is present, an orient op is authored
directly from those four numbers, without normalization. -/
theorem place_product_rotation_selection (product_id : String) (e : Entry)
    (s : Stage) (a : String) (t sc : Vec3)
    (ha : e.asset = some a) (ht : e.translate = some t)
    (hsc : e.scale = some sc) :
    (∀ rv, e.rotate = some rv →
      ((place_product product_id e s).2 (productPath product_id e)).map Prim.ops
        = some [{ kind := OpKind.translate, val := some (vec3List t) },
                { kind := OpKind.rotateZYX, val := some (vec3List rv) },
                { kind := OpKind.scale, val := some (vec3List sc) }])
    ∧ (∀ q, e.rotate = none → e.orient = some q →
      ((place_product product_id e s).2 (productPath product_id e)).map Prim.ops
        = some [{ kind := OpKind.translate, val := some (vec3List t) },
                { kind := OpKind.orient, val := some (quatList q) },
                { kind := OpKind.scale, val := some (vec3List sc) }]) := by
  constructor
  · intro rv hrv
    rw [place_product_eq]
    simp only [setPrim_self]
    show some (placePrimF e (s (productPath product_id e))).ops = _
    rw [placePrimF_ops e _ (by rw [ha]; rfl) (by rw [ht]; rfl) (by rw [hsc]; rfl)]
    simp [specOpList, hrv, ht, hsc]
  · intro q hrot hq
    rw [place_product_eq]
    simp only [setPrim_self]
    show some (placePrimF e (s (productPath product_id e))).ops = _
    rw [placePrimF_ops e _ (by rw [ha]; rfl) (by rw [ht]; rfl) (by rw [hsc]; rfl)]
    simp [specOpList, hrot, hq, ht, hsc]

/-- C4 witness entry: both rotate and orient present, Euler must win. -/
def exEntryBoth : Entry :=
  { shelf := none, category := none, asset := some "soda.usd",
    translate := some { x := 2, y := 3, z := 4 },
    scale := some { x := 1, y := 1, z := 1 },
    rotate := some { x := 10, y := 20, z := 30 },
    orient := some { w := 1, i := 0, j := 0, k := 0 } }

theorem place_product_rotation_selection_witness :
    (exEntryBoth.asset = some "soda.usd"
      ∧ exEntryBoth.translate = some { x := 2, y := 3, z := 4 }
      ∧ exEntryBoth.scale = some { x := 1, y := 1, z := 1 })
    ∧ ((∀ rv, exEntryBoth.rotate = some rv →
        ((place_product "B" exEntryBoth emptyStage).2
            (productPath "B" exEntryBoth)).map Prim.ops
          = some [{ kind := OpKind.translate,
                    val := some (vec3List { x := 2, y := 3, z := 4 }) },
                  { kind := OpKind.rotateZYX, val := some (vec3List rv) },
                  { kind := OpKind.scale,
                    val := some (vec3List { x := 1, y := 1, z := 1 }) }])
      ∧ (∀ q, exEntryBoth.rotate = none → exEntryBoth.orient = some q →
        ((place_product "B" exEntryBoth emptyStage).2
            (productPath "B" exEntryBoth)).map Prim.ops
          = some [{ kind := OpKind.translate,
                    val := some (vec3List { x := 2, y := 3, z := 4 }) },
                  { kind := OpKind.orient, val := some (quatList q) },
                  { kind := OpKind.scale,
                    val := some (vec3List { x := 1, y := 1, z := 1 }) }])) :=
  ⟨⟨rfl, rfl, rfl⟩,
   place_product_rotation_selection "B" exEntryBoth emptyStage _ _ _ rfl rfl rfl⟩

/-- C7: with the world-transform step enabled it fails when the anchor is
missing, leaving the stage untouched; otherwise it succeeds, authors on the
anchor the op order exactly translate then rotate (with the configured
values), sets the reset-transform-stack flag to true in override mode and to
false (composable) in additive mode, and re-invocation authors the same two
ops again instead of accumulating. -/
theorem apply_world_transform_spec (cfg : Config) (s : Stage)
    (henabled : cfg.apply_shelf_world_xform = true) :
    (s shelfPath = none →
      apply_shelf_world_transform_if_enabled cfg s = (false, s))
    ∧ (∀ pr0, s shelfPath = some pr0 →
        apply_shelf_world_transform_if_enabled cfg s
            = (true, setPrim s shelfPath (applyPrimF cfg pr0))
          ∧ (applyPrimF cfg pr0).ops
              = [{ kind := OpKind.translate,
                   val := some (vec3List cfg.shelf_world_translate) },
                 { kind := OpKind.rotateZYX,
                   val := some (vec3List cfg.shelf_world_rotate_zyx_deg) }]
          ∧ (cfg.shelf_world_xform_mode = "override" →
              (applyPrimF cfg pr0).resetXformStack = true)
          ∧ (cfg.shelf_world_xform_mode = "additive" →
              (applyPrimF cfg pr0).resetXformStack = false)
          ∧ (((apply_shelf_world_transform_if_enabled cfg
                (apply_shelf_world_transform_if_enabled cfg s).2).2
                  shelfPath).map Prim.ops
              = some [{ kind := OpKind.translate,
                        val := some (vec3List cfg.shelf_world_translate) },
                      { kind := OpKind.rotateZYX,
                        val := some (vec3List cfg.shelf_world_rotate_zyx_deg) }])) := by
  constructor
  · intro h
    exact apply_enabled_missing cfg s henabled h
  · intro pr0 h
    have h1 := apply_enabled_present cfg s pr0 henabled h
    refine ⟨h1, rfl, ?_, ?_, ?_⟩
    · intro hm
      simp [applyPrimF, hm]
      decide
    · intro hm
      simp [applyPrimF, hm]
      decide
    · rw [h1]
      have h2 := apply_enabled_present cfg
        (setPrim s shelfPath (applyPrimF cfg pr0)) (applyPrimF cfg pr0)
        henabled (setPrim_self ..)
      rw [h2]
      simp only [setPrim_setPrim, setPrim_self]
      rfl

/-- C7 witness: a concrete override-mode configuration and anchor. -/
def exCfgOverride : Config :=
  { use_current_scene := true
    apply_shelf_world_xform := true
    shelf_world_translate := { x := 5, y := 0, z := 0 }
    shelf_world_rotate_zyx_deg := { x := 0, y := 90, z := 0 }
    shelf_world_xform_mode := "override" }

/-- A stage holding only the anchor prim. -/
def exStageShelfOnly : Stage := fun p =>
  if p = shelfPath then some freshXformPrim else none

theorem apply_world_transform_spec_witness :
    (exCfgOverride.apply_shelf_world_xform = true
      ∧ exStageShelfOnly shelfPath = some freshXformPrim)
    ∧ (apply_shelf_world_transform_if_enabled exCfgOverride exStageShelfOnly
          = (true, setPrim exStageShelfOnly shelfPath
              (applyPrimF exCfgOverride freshXformPrim))
        ∧ (applyPrimF exCfgOverride freshXformPrim).ops
            = [{ kind := OpKind.translate,
                 val := some (vec3List exCfgOverride.shelf_world_translate) },
               { kind := OpKind.rotateZYX,
                 val := some (vec3List exCfgOverride.shelf_world_rotate_zyx_deg) }]
        ∧ (exCfgOverride.shelf_world_xform_mode = "override" →
            (applyPrimF exCfgOverride freshXformPrim).resetXformStack = true)
        ∧ (exCfgOverride.shelf_world_xform_mode = "additive" →
            (applyPrimF exCfgOverride freshXformPrim).resetXformStack = false)
        ∧ (((apply_shelf_world_transform_if_enabled exCfgOverride
              (apply_shelf_world_transform_if_enabled exCfgOverride
                exStageShelfOnly).2).2 shelfPath).map Prim.ops
            = some [{ kind := OpKind.translate,
                      val := some (vec3List exCfgOverride.shelf_world_translate) },
                    { kind := OpKind.rotateZYX,
                      val := some (vec3List exCfgOverride.shelf_world_rotate_zyx_deg) }])) :=
  ⟨⟨rfl, by decide⟩,
   (apply_world_transform_spec exCfgOverride exStageShelfOnly rfl).2
     freshXformPrim (by decide)⟩

/-- The attach step always leaves exactly the single base-fixture reference
on the anchor, whatever references were there before. -/
theorem shelfF_refs (cfg : Config) (x : Option Prim) :
    (shelfF cfg x).refs
      = [{ assetPath := empty_shop_path, primPath := shelfPath }] := by
  cases h : cfg.apply_shelf_world_xform <;> simp [shelfF, h, applyPrimF]

/-- C6: attach-into-current fails when no scene is active; otherwise it
succeeds and the anchor node exists (created as a placeholder if it was
absent) holding exactly one reference, to the shelf sub-node of the base fixture —
no matter how many stale references it held — and a rerun on the produced
scene again yields exactly that single reference. -/
theorem add_shelf_spec (cfg : Config) (ctx : Option Stage) :
    (ctx = none → add_shelf_to_existing_stage cfg ctx = (false, none))
    ∧ (∀ s, ctx = some s →
        ∃ s', add_shelf_to_existing_stage cfg ctx = (true, some s')
          ∧ (∃ pr, s' shelfPath = some pr
              ∧ pr.refs = [{ assetPath := empty_shop_path, primPath := shelfPath }])
          ∧ (∃ s2, add_shelf_to_existing_stage cfg (some s') = (true, some s2)
              ∧ ∃ pr2, s2 shelfPath = some pr2
                ∧ pr2.refs
                    = [{ assetPath := empty_shop_path, primPath := shelfPath }])) := by
  constructor
  · intro h
    subst h
    rfl
  · intro s h
    subst h
    refine ⟨setPrim s shelfPath (shelfF cfg (s shelfPath)), add_shelf_eq cfg s,
      ⟨shelfF cfg (s shelfPath), setPrim_self .., shelfF_refs ..⟩, ?_⟩
    refine ⟨setPrim (setPrim s shelfPath (shelfF cfg (s shelfPath))) shelfPath
      (shelfF cfg ((setPrim s shelfPath (shelfF cfg (s shelfPath))) shelfPath)),
      add_shelf_eq cfg _, ?_⟩
    exact ⟨_, setPrim_self .., shelfF_refs ..⟩

/-- C6 witness: a stage whose anchor already holds two stale references. -/
def exStaleRef1 : Ref := { assetPath := "old_a.usd", primPath := ["World"] }

def exStaleRef2 : Ref := { assetPath := "old_b.usd", primPath := ["Other"] }

/-- An anchor prim carrying two stale references. -/
def exStalePrim : Prim :=
  { type := PrimType.xform, refs := [exStaleRef1, exStaleRef2], payloads := [],
    ops := [], resetXformStack := false }

/-- A stage whose anchor holds the two stale references. -/
def exStageStale : Stage := fun p =>
  if p = shelfPath then some exStalePrim else none

theorem add_shelf_spec_witness :
    ((some exStageStale : Option Stage) = some exStageStale)
    ∧ (∃ s', add_shelf_to_existing_stage defaultConfig (some exStageStale)
          = (true, some s')
        ∧ (∃ pr, s' shelfPath = some pr
            ∧ pr.refs = [{ assetPath := empty_shop_path, primPath := shelfPath }])
        ∧ (∃ s2, add_shelf_to_existing_stage defaultConfig (some s') = (true, some s2)
            ∧ ∃ pr2, s2 shelfPath = some pr2
              ∧ pr2.refs
                  = [{ assetPath := empty_shop_path, primPath := shelfPath }])) :=
  ⟨rfl, (add_shelf_spec defaultConfig (some exStageStale)).2 exStageStale rfl⟩

/-- C8: the placement stage tallies exactly the entries carrying the required
asset, translate and scale fields — a failing entry (one lacking a required
field) is counted as a per-entity failure without aborting the others, every
entry of the varied catalog is attempted, and the orchestrator flag is
success precisely when at least one entity placed. -/
theorem place_all_tolerates_failures (catalog : Catalog) (r : RandSrc)
    (s : Stage) :
    ((place_all_loop (randomize_product_rotations catalog 3 r) (0, s)).1
        = catalog.countP (fun ke => requiredB ke.2))
    ∧ ((randomize_product_rotations catalog 3 r).length = catalog.length)
    ∧ ((place_all_products catalog r s).1
        = decide (0 < catalog.countP (fun ke => requiredB ke.2))) := by
  refine ⟨?_, ?_, ?_⟩
  · rw [place_all_loop_count, randomize_countP, Nat.zero_add]
  · rw [randomize_eq, List.length_map]
  · rw [place_all_products_eq]
    rfl

/-- C9 (implicit): with an empty catalog the pipeline reports overall
failure — zero entities place, so place_all_products returns false and
setup_scene_sync returns false, in every mode and on every scene. -/
theorem empty_catalog_reports_failure (cfg : Config) (r : RandSrc)
    (ctx openResult : Option Stage) (s : Stage) :
    place_all_products ([] : Catalog) r s = (false, s)
    ∧ (setup_scene_sync cfg ([] : Catalog) r ctx openResult).1 = false := by
  constructor
  · rfl
  · cases hcu : cfg.use_current_scene with
    | true =>
      cases ctx with
      | none => rw [setup_cur_none cfg ([] : Catalog) r openResult hcu]
      | some s0 =>
        rw [setup_cur_eq cfg ([] : Catalog) r s0 openResult hcu]
        rfl
    | false =>
      cases openResult with
      | none => rw [setup_new_open_failed cfg ([] : Catalog) r ctx hcu]
      | some base =>
        rcases hres : apply_shelf_world_transform_if_enabled cfg base with ⟨b, s1⟩
        cases b with
        | false =>
          simp [setup_scene_sync, load_empty_shop_sync, hcu, hres]
        | true =>
          cases hsh : s1 shelfPath with
          | none =>
            simp [setup_scene_sync, load_empty_shop_sync, hcu, hres,
              hierarchy_missing _ _ hsh]
          | some pr =>
            simp [setup_scene_sync, load_empty_shop_sync, hcu, hres,
              hierarchy_eq ([] : Catalog) _ pr hsh, place_all_products_eq,
              pipelineCount]

/-- Counting the keys that fall in a duplicate-free selection drawn from a
duplicate-free key list gives the size of the selection. -/
theorem countP_mem_eq_length (keys sel : List String)
    (hk : keys.Nodup) (hsn : sel.Nodup) (hsub : sel ⊆ keys) :
    keys.countP (fun k => decide (k ∈ sel)) = sel.length := by
  rw [List.countP_eq_length_filter]
  have h1 : (keys.filter (fun k => decide (k ∈ sel))).Nodup := hk.filter _
  have h2 : (keys.filter (fun k => decide (k ∈ sel))).toFinset = sel.toFinset := by
    ext a
    simp only [List.mem_toFinset, List.mem_filter, decide_eq_true_eq]
    exact ⟨fun h => h.2, fun h => ⟨hsub h, h⟩⟩
  calc (keys.filter (fun k => decide (k ∈ sel))).length
      = (keys.filter (fun k => decide (k ∈ sel))).toFinset.card :=
        (List.toFinset_card_of_nodup h1).symm
    _ = sel.toFinset.card := by rw [h2]
    _ = sel.length := List.toFinset_card_of_nodup hsn

/-- A duplicate-free sublist of a duplicate-free list of the same length
exhausts it. -/
theorem mem_sel_of_full_length (keys sel : List String)
    (hk : keys.Nodup) (hsn : sel.Nodup) (hsub : sel ⊆ keys)
    (hlen : sel.length = keys.length) : ∀ k ∈ keys, k ∈ sel := by
  have h1 : sel.toFinset ⊆ keys.toFinset := by
    intro a ha
    rw [List.mem_toFinset] at *
    exact hsub ha
  have h2 : keys.toFinset.card ≤ sel.toFinset.card := by
    rw [List.toFinset_card_of_nodup hsn, List.toFinset_card_of_nodup hk, hlen]
  have h3 : sel.toFinset = keys.toFinset := Finset.eq_of_subset_of_card_le h1 h2
  intro k hkmem
  have : k ∈ keys.toFinset := List.mem_toFinset.2 hkmem
  rw [← h3, List.mem_toFinset] at this
  exact this

/-- The varied-entry count of one randomize call, as key counting. -/
theorem randomize_selected_countP (catalog : Catalog) (n : Nat) (r : RandSrc) :
    (randomize_product_rotations catalog n r).countP
        (fun ke => decide (ke.1 ∈ selOf catalog n r))
      = (catalog.map Prod.fst).countP
          (fun k => decide (k ∈ selOf catalog n r)) := by
  rw [randomize_eq, List.countP_map, List.countP_map]
  exact List.countP_congr (fun ke _ => by
    simp [Function.comp, varyF_fst])

/-- The properties of the concrete selection of one randomize call, under the
random.sample contract. -/
theorem selOf_spec (catalog : Catalog) (n : Nat) (r : RandSrc)
    (hn : (catalog.map Prod.fst).Nodup) (hs : SampleOk r) :
    (selOf catalog n r).Nodup ∧ selOf catalog n r ⊆ catalog.map Prod.fst
      ∧ (selOf catalog n r).length = min n catalog.length := by
  have h := hs (catalog.map Prod.fst) (min n (catalog.map Prod.fst).length) hn
    (Nat.min_le_right ..)
  unfold selOf
  refine ⟨h.1, h.2.1, ?_⟩
  rw [h.2.2, List.length_map]

/-- C3 (and the variation bounds and saturation properties): under the
random-source contract, vary returns a new mapping with the same keys in the
same order in which exactly min(count, size) distinct entries — those whose
key was sampled without replacement — have their rotate field replaced by the
three uniformly drawn angles (each in the half-open range) and any orient
field removed, every unselected entry passes through unchanged, and when the
count exceeds the catalog size every entry is varied. -/
theorem randomize_product_rotations_spec (catalog : Catalog) (n : Nat)
    (r : RandSrc) (hn : (catalog.map Prod.fst).Nodup) (hs : SampleOk r)
    (hu : UniformOk r) :
    ((randomize_product_rotations catalog n r).map Prod.fst
        = catalog.map Prod.fst)
    ∧ ((randomize_product_rotations catalog n r).countP
          (fun ke => decide (ke.1 ∈ selOf catalog n r))
        = min n catalog.length)
    ∧ (∀ ke ∈ catalog, ke.1 ∉ selOf catalog n r →
        ke ∈ randomize_product_rotations catalog n r)
    ∧ (∀ k e, (k, e) ∈ catalog → k ∈ selOf catalog n r →
        (k, { e with rotate := some (r.uniform3 k), orient := none })
            ∈ randomize_product_rotations catalog n r
          ∧ vec3InRange (r.uniform3 k))
    ∧ (catalog.length < n →
        ∀ ke ∈ catalog, ke.1 ∈ selOf catalog n r) := by
  obtain ⟨hsn, hsub, hlen⟩ := selOf_spec catalog n r hn hs
  refine ⟨randomize_keys .., ?_, ?_, ?_, ?_⟩
  · rw [randomize_selected_countP,
      countP_mem_eq_length (catalog.map Prod.fst) _ hn hsn hsub, hlen]
  · intro ke hmem hnot
    rw [randomize_eq]
    refine List.mem_map.2 ⟨ke, hmem, ?_⟩
    simp [varyF, hnot]
  · intro k e hmem hsel
    constructor
    · rw [randomize_eq]
      refine List.mem_map.2 ⟨(k, e), hmem, ?_⟩
      simp [varyF, hsel]
    · exact hu k
  · intro hbig ke hmem
    have hfull : (selOf catalog n r).length = (catalog.map Prod.fst).length := by
      rw [hlen, List.length_map, Nat.min_eq_right (Nat.le_of_lt hbig)]
    exact mem_sel_of_full_length (catalog.map Prod.fst) _ hn hsn hsub hfull
      ke.1 (List.mem_map.2 ⟨ke, hmem, rfl⟩)

/-- C10 (implicit): place_all_products always invokes the variation step with
the hard-coded count 3 — its result is literally the loop over
randomize_product_rotations catalog 3 r — so under the sampling contract the
varied-entry count of every pipeline run is exactly min(3, size). -/
theorem variation_count_fixed (catalog : Catalog) (r : RandSrc) (s : Stage)
    (hn : (catalog.map Prod.fst).Nodup) (hs : SampleOk r) :
    ((randomize_product_rotations catalog 3 r).countP
        (fun ke => decide (ke.1 ∈ selOf catalog 3 r))
      = min 3 catalog.length)
    ∧ place_all_products catalog r s
        = (decide (0 < (place_all_loop
              (randomize_product_rotations catalog 3 r) (0, s)).1),
           (place_all_loop (randomize_product_rotations catalog 3 r) (0, s)).2) := by
  obtain ⟨hsn, hsub, hlen⟩ := selOf_spec catalog 3 r hn hs
  constructor
  · rw [randomize_selected_countP,
      countP_mem_eq_length (catalog.map Prod.fst) _ hn hsn hsub, hlen]
  · rfl

/-- A (shelf-level, category) pair derived from the catalog, with the
source defaults. -/
def derivedPair (catalog : Catalog) (sl c : String) : Prop :=
  ∃ ke ∈ catalog,
    ke.2.shelf.getD "Items_Lower" = sl ∧ ke.2.category.getD "Unknown" = c

/-- A pair recorded in the shelf_categories mapping. -/
def PairIn (sc : List (String × List String)) (sl c : String) : Prop :=
  ∃ cs, (sl, cs) ∈ sc ∧ c ∈ cs

theorem addPair_self (acc : List (String × List String)) (sl c : String) :
    PairIn (addPair acc sl c) sl c := by
  induction acc with
  | nil => exact ⟨[c], by simp [addPair]⟩
  | cons kcs acc ih =>
    obtain ⟨k, cs⟩ := kcs
    by_cases h : k = sl
    · subst h
      by_cases hc : c ∈ cs
      · exact ⟨cs, by simp [addPair, hc], hc⟩
      · exact ⟨cs ++ [c], by simp [addPair, hc], by simp⟩
    · obtain ⟨cs0, hmem, hc⟩ := ih
      exact ⟨cs0, by simp [addPair, h, hmem], hc⟩

theorem addPair_mono (acc : List (String × List String)) (sl c sl' c' : String)
    (h : PairIn acc sl' c') : PairIn (addPair acc sl c) sl' c' := by
  induction acc with
  | nil => obtain ⟨cs0, hmem, _⟩ := h; simp at hmem
  | cons kcs acc ih =>
    obtain ⟨k, cs⟩ := kcs
    obtain ⟨cs0, hmem, hc⟩ := h
    rcases List.mem_cons.1 hmem with hhead | htail
    · rw [Prod.mk.injEq] at hhead
      obtain ⟨h1, h2⟩ := hhead
      subst h1
      subst h2
      by_cases hss : sl' = sl
      · subst hss
        by_cases hcc : c ∈ cs0
        · exact ⟨cs0, by simp [addPair, hcc], hc⟩
        · exact ⟨cs0 ++ [c], by simp [addPair, hcc], by simp [hc]⟩
      · exact ⟨cs0, by simp [addPair, hss], hc⟩
    · by_cases h : k = sl
      · subst h
        by_cases hcc : c ∈ cs
        · exact ⟨cs0, by simp [addPair, hcc, htail], hc⟩
        · exact ⟨cs0, by simp [addPair, hcc, htail], hc⟩
      · obtain ⟨cs1, hmem1, hc1⟩ := ih ⟨cs0, htail, hc⟩
        exact ⟨cs1, by simp [addPair, h, hmem1], hc1⟩

theorem foldl_addPair_mono (l : Catalog) (acc : List (String × List String))
    (sl c : String) (h : PairIn acc sl c) :
    PairIn (l.foldl (fun a ke =>
      addPair a (ke.2.shelf.getD "Items_Lower") (ke.2.category.getD "Unknown"))
      acc) sl c := by
  induction l generalizing acc with
  | nil => exact h
  | cons ke l ih =>
    exact ih _ (addPair_mono _ _ _ _ _ h)

/-- Every pair derived from a catalog entry is recorded by shelf_categories. -/
theorem derived_pairIn (catalog : Catalog) (sl c : String)
    (h : derivedPair catalog sl c) : PairIn (shelfCategories catalog) sl c := by
  unfold shelfCategories
  obtain ⟨ke, hmem, h1, h2⟩ := h
  have main : ∀ (l : Catalog) (acc : List (String × List String)),
      ke ∈ l →
      PairIn (l.foldl (fun a ke =>
        addPair a (ke.2.shelf.getD "Items_Lower") (ke.2.category.getD "Unknown"))
        acc) sl c := by
    intro l
    induction l with
    | nil => intro acc hmem; simp at hmem
    | cons ke0 l ih =>
      intro acc hmem0
      rcases List.mem_cons.1 hmem0 with hh | ht
      · subst hh
        simp only [List.foldl_cons]
        rw [h1, h2]
        exact foldl_addPair_mono l _ sl c (addPair_self ..)
      · exact ih _ ht
  exact main catalog [] hmem

/-- A recorded pair contributes both of its group paths. -/
theorem pairIn_paths (sc : List (String × List String)) (sl c : String)
    (h : PairIn sc sl c) :
    (["World", "Shelf", sl] : PrimPath) ∈ groupPathsOfSC sc
      ∧ (["World", "Shelf", sl, c] : PrimPath) ∈ groupPathsOfSC sc := by
  induction sc with
  | nil => obtain ⟨cs0, hmem, _⟩ := h; simp at hmem
  | cons kcs sc ih =>
    obtain ⟨k, cs⟩ := kcs
    obtain ⟨cs0, hmem, hc⟩ := h
    simp only [groupPathsOfSC, List.foldr_cons]
    rcases List.mem_cons.1 hmem with hh | ht
    · injection hh with h1 h2
      subst h1
      subst h2
      constructor
      · simp
      · refine List.mem_append.2 (Or.inl ?_)
        exact List.mem_cons.2 (Or.inr (List.mem_map.2 ⟨c, hc, rfl⟩))
    · obtain ⟨ih1, ih2⟩ := ih ⟨cs0, ht, hc⟩
      exact ⟨List.mem_append.2 (Or.inr ih1), List.mem_append.2 (Or.inr ih2)⟩

/-- C5 (amended): the hierarchy build fails (leaving the scene untouched)
exactly when the anchor is missing; otherwise it succeeds, and afterwards a
Scope group node exists at anchor/shelf-level and anchor/shelf-level/category
for every pair derived from the catalog; a prim already present at a group
path is reused — only its type is authored, its references, payloads, ops and
reset flag survive — and every other path of the scene is untouched, so a
group node at a pair absent from the catalog exists after the build only if
it already existed before (the build never deletes pre-existing nodes). -/
theorem create_product_hierarchy_spec (catalog : Catalog) (s : Stage) :
    (s shelfPath = none → create_product_hierarchy catalog s = (false, s))
    ∧ (∀ pr0, s shelfPath = some pr0 →
        (create_product_hierarchy catalog s).1 = true
        ∧ (∀ sl c, derivedPair catalog sl c →
            (∃ pr, (create_product_hierarchy catalog s).2 ["World", "Shelf", sl]
                = some pr ∧ pr.type = PrimType.scope)
            ∧ (∃ pr, (create_product_hierarchy catalog s).2
                  ["World", "Shelf", sl, c]
                = some pr ∧ pr.type = PrimType.scope))
        ∧ (∀ p, p ∈ groupPathsOf catalog →
            (create_product_hierarchy catalog s).2 p = some (scopify (s p)))
        ∧ (∀ p, p ∉ groupPathsOf catalog →
            (create_product_hierarchy catalog s).2 p = s p)) := by
  constructor
  · exact hierarchy_missing catalog s
  · intro pr0 h
    rw [hierarchy_eq catalog s pr0 h]
    refine ⟨rfl, ?_, ?_, ?_⟩
    · intro sl c hd
      obtain ⟨h1, h2⟩ := pairIn_paths _ sl c (derived_pairIn catalog sl c hd)
      constructor
      · refine ⟨scopify (s ["World", "Shelf", sl]), ?_, rfl⟩
        show (groupPathsOf catalog).foldl defineScope s ["World", "Shelf", sl]
          = some (scopify (s ["World", "Shelf", sl]))
        rw [foldScope_apply,
          if_pos (show (["World", "Shelf", sl] : PrimPath) ∈ groupPathsOf catalog from h1)]
      · refine ⟨scopify (s ["World", "Shelf", sl, c]), ?_, rfl⟩
        show (groupPathsOf catalog).foldl defineScope s ["World", "Shelf", sl, c]
          = some (scopify (s ["World", "Shelf", sl, c]))
        rw [foldScope_apply,
          if_pos (show (["World", "Shelf", sl, c] : PrimPath) ∈ groupPathsOf catalog from h2)]
    · intro p hp
      show (groupPathsOf catalog).foldl defineScope s p = some (scopify (s p))
      rw [foldScope_apply, if_pos hp]
    · intro p hp
      show (groupPathsOf catalog).foldl defineScope s p = s p
      rw [foldScope_apply, if_neg hp]

/-- A one-entry catalog deriving only the pair (S1, C1). -/
def exCatalogC5 : Catalog :=
  [("A", { shelf := some "S1", category := some "C1", asset := some "chips.usd",
           translate := some { x := 1, y := 0, z := 0 },
           scale := some { x := 1, y := 1, z := 1 },
           rotate := none, orient := none })]

/-- A group path for a pair that no catalog entry derives. -/
def strayPath : PrimPath := ["World", "Shelf", "Stray", "Odd"]

/-- A stage holding the anchor and a pre-existing group node at the path of the stray
pair. -/
def exStageC5 : Stage := fun p =>
  if p = shelfPath then some freshXformPrim
  else if p = strayPath then some freshScopePrim
  else none

/-- C5 counterexample: on a scene that already holds a group node at the path
of a pair absent from the catalog, the build succeeds and that group node
still exists afterwards — refuting the claim that after a successful build no
GroupNode exists for a (shelf-level, category) pair absent from the catalog. -/
theorem create_product_hierarchy_stray_counterexample :
    (create_product_hierarchy exCatalogC5 exStageC5).1 = true
    ∧ ¬ derivedPair exCatalogC5 "Stray" "Odd"
    ∧ (create_product_hierarchy exCatalogC5 exStageC5).2 strayPath
        = some freshScopePrim
    ∧ freshScopePrim.type = PrimType.scope := by
  refine ⟨by decide, ?_, by decide, rfl⟩
  intro hd
  obtain ⟨ke, hmem, h1, h2⟩ := hd
  simp [exCatalogC5] at hmem
  rw [hmem] at h1
  simp at h1

/-- C5 witness: the amended theorem applied at the same concrete scene. -/
theorem create_product_hierarchy_spec_witness :
    (exStageC5 shelfPath = some freshXformPrim)
    ∧ (create_product_hierarchy exCatalogC5 exStageC5).1 = true :=
  ⟨by decide,
   ((create_product_hierarchy_spec exCatalogC5 exStageC5).2 freshXformPrim
     (by decide)).1⟩

/-- A concrete deterministic random source: sampling takes a prefix of the
population and every angle draw is zero. -/
def exRand : RandSrc :=
  { sample := fun pop k => pop.take k
    uniform3 := fun _ => { x := 0, y := 0, z := 0 } }

theorem exRand_sampleOk : SampleOk exRand := by
  intro pop k hnd hk
  refine ⟨List.Nodup.sublist (List.take_sublist k pop) hnd, ?_, ?_⟩
  · intro a ha
    exact List.take_subset k pop ha
  · show (pop.take k).length = k
    rw [List.length_take]
    exact Nat.min_eq_left hk

theorem exRand_uniformOk : UniformOk exRand := by
  intro pid
  refine ⟨⟨?_, ?_⟩, ⟨?_, ?_⟩, ⟨?_, ?_⟩⟩ <;> norm_num [exRand]

/-- C2 witness: two runs on a concrete empty scene and one-entry catalog. -/
theorem setup_scene_sync_idempotent_witness :
    ((exCatalogC5.map Prod.fst).Nodup)
    ∧ (setup_scene_sync defaultConfig exCatalogC5 exRand
          (setup_scene_sync defaultConfig exCatalogC5 exRand
            (some emptyStage) none).2 none
        = setup_scene_sync defaultConfig exCatalogC5 exRand
            (some emptyStage) none) :=
  ⟨by decide,
   setup_scene_sync_idempotent defaultConfig exCatalogC5 exRand exRand
     (some emptyStage) none (by decide)⟩

/-- C3 witness: the variation contract applied at a concrete catalog and
random source. -/
theorem randomize_product_rotations_spec_witness :
    ((exCatalogC5.map Prod.fst).Nodup)
    ∧ ((randomize_product_rotations exCatalogC5 5 exRand).map Prod.fst
        = exCatalogC5.map Prod.fst) :=
  ⟨by decide,
   (randomize_product_rotations_spec exCatalogC5 5 exRand (by decide)
     exRand_sampleOk exRand_uniformOk).1⟩

/-- C10 witness: the fixed-count variation applied at a concrete catalog. -/
theorem variation_count_fixed_witness :
    ((exCatalogC5.map Prod.fst).Nodup)
    ∧ ((randomize_product_rotations exCatalogC5 3 exRand).countP
          (fun ke => decide (ke.1 ∈ selOf exCatalogC5 3 exRand))
        = min 3 exCatalogC5.length) :=
  ⟨by decide,
   (variation_count_fixed exCatalogC5 exRand emptyStage (by decide)
     exRand_sampleOk).1⟩
